import Mathlib

/-!
Shallow embedding of the financial-calculation engine of
`src/src/App.jsx` (LoanRestructure Pro): the amortization calculator
(`calcEMI`, `calcTotalInterest`), the strategy simulator
(`simulateRestructure`), and the best-strategy selection shared by
`generateReportHTML` and `runAnalysis` (`bestResult`).

Embedding conventions:
* JS numbers are modelled as exact rationals `ℚ`; decimal literals of the
  source become the corresponding exact rationals.
* Tenures are modelled as integers `ℤ`, following the spec's data model
  (tenure in months, a positive integer); the engine uses a tenure only as
  a power exponent, a divisor, and through `Math.round`.
* `Math.round` in JS rounds half toward positive infinity:
  `jsRound q = ⌊q + 1/2⌋`.
* Division on `ℚ` is Lean's total division (`x / 0 = 0`); the source code
  reaches a zero denominator only on inputs outside the spec's data model
  (where JS would produce `Infinity`/`NaN`, values `ℚ` does not have).
* JS number→string formatting inside the human-readable `details` strings
  (`toFixed`, default number printing) is abstracted by `toString` on the
  exact rational; the strings' shapes and the data flowing into them are
  modelled faithfully.
-/

/-- A loan of the portfolio: `{ type, amount, rate, tenure }` as built by
the input step of `App`. -/
structure Loan where
  type : String
  amount : ℚ
  rate : ℚ
  tenure : ℤ
deriving DecidableEq, Repr

/-- An entry of the `LOAN_TYPES` constant table. -/
structure LoanType where
  id : String
  label : String
  icon : String
  defaultRate : ℚ
  defaultTenure : ℤ
  defaultAmount : ℚ
deriving DecidableEq, Repr

/-- The `LOAN_TYPES` constant table of `App.jsx`. -/
def LOAN_TYPES : List LoanType :=
  [⟨"term", "Term Loan", "🏦", 11.5, 60, 1500000⟩,
   ⟨"ccod", "CC/OD Facility", "💳", 13.5, 12, 800000⟩,
   ⟨"mudra", "MUDRA Loan", "🏛️", 10.0, 36, 500000⟩,
   ⟨"vehicle", "Vehicle/Equipment", "🚛", 12.0, 48, 1200000⟩,
   ⟨"working", "Working Capital", "⚙️", 14.0, 24, 600000⟩]

/-- An entry of the `RESTRUCTURE_STRATEGIES` constant table. -/
structure Strategy where
  id : String
  label : String
  description : String
deriving DecidableEq, Repr

/-- The `RESTRUCTURE_STRATEGIES` constant table of `App.jsx`, fixing the
five recognized strategy identifiers and their declaration order. -/
def RESTRUCTURE_STRATEGIES : List Strategy :=
  [⟨"prepay_highest", "Prepay Highest Rate First", "Avalanche method — target the costliest loan"⟩,
   ⟨"consolidate", "Consolidate All Loans", "Single loan at a negotiated lower rate"⟩,
   ⟨"balance_transfer", "Balance Transfer", "Move high-rate loans to a lower-rate lender"⟩,
   ⟨"extend_tenure", "Extend Tenure + Reduce EMI", "Ease monthly cash flow pressure"⟩,
   ⟨"hybrid", "Hybrid Optimal", "AI-recommended mix of strategies"⟩]

/-- JS `Math.round`: nearest integer, halves rounding toward `+∞`. -/
def jsRound (q : ℚ) : ℤ := ⌊q + 1/2⌋

/-- `calcEMI(principal, annualRate, tenureMonths)` of `App.jsx`:
returns `0` when `principal <= 0 || tenureMonths <= 0`; otherwise the
reducing-balance annuity payment with monthly rate
`r = annualRate / 100 / 12`, straight-line when `r === 0`. -/
def calcEMI (principal annualRate : ℚ) (tenureMonths : ℤ) : ℚ :=
  if principal ≤ 0 ∨ tenureMonths ≤ 0 then 0
  else
    let r := annualRate / 100 / 12
    if r = 0 then principal / tenureMonths
    else principal * r * (1 + r) ^ tenureMonths.toNat / ((1 + r) ^ tenureMonths.toNat - 1)

/-- `calcTotalInterest(principal, annualRate, tenureMonths)` of `App.jsx`:
`emi * tenureMonths - principal`. -/
def calcTotalInterest (principal annualRate : ℚ) (tenureMonths : ℤ) : ℚ :=
  calcEMI principal annualRate tenureMonths * tenureMonths - principal

/-- Stable insertion of a loan into a list already sorted by strictly
descending rate: the loan passes elements with a strictly greater rate and
stops in front of the first element whose rate is less than or equal to
its own.  `insertDesc` and `sortByRateDesc` together model the JS
`[...loans].sort((a, b) => b.rate - a.rate)`: `Array.prototype.sort` is
stable (ES2019), and a stable sort's output is uniquely determined by the
comparator, so any stable descending-by-rate sort is extensionally the
same function. -/
def insertDesc (x : Loan) : List Loan → List Loan
  | [] => [x]
  | y :: ys => if x.rate < y.rate then y :: insertDesc x ys else x :: y :: ys

/-- Stable sort of the portfolio by descending rate; see `insertDesc`. -/
def sortByRateDesc : List Loan → List Loan
  | [] => []
  | x :: xs => insertDesc x (sortByRateDesc xs)

/-- `Math.max(...loans.map(l => l.tenure))` of `simulateRestructure`.
The `[]` case (JS `-Infinity`, not a value of `ℤ`) is unreachable: per
the spec (§7) the caller rejects an empty portfolio before invoking the
engine, and every theorem below assumes a non-empty portfolio. -/
def maxTenure : List Loan → ℤ
  | [] => 0
  | l :: ls => ls.foldl (fun m l2 => max m l2.tenure) l.tenure

/-- The details string of the `prepay_highest` branch:
``Aggressively prepay ${label} (${rate}% p.a.) — reduces tenure by
~${tenure - reducedTenure} months``, with the label looked up in
`LOAN_TYPES` (`?.label || "highest rate loan"`: in JS the fallback is
also taken when the label is the empty string, which is falsy). -/
def prepayDetails (highest : Loan) (reducedTenure : ℤ) : String :=
  let lbl :=
    match LOAN_TYPES.find? (fun t => t.id == highest.type) with
    | some t => if t.label = "" then "highest rate loan" else t.label
    | none => "highest rate loan"
  let r := toString highest.rate
  let dm := toString (highest.tenure - reducedTenure)
  s!"Aggressively prepay {lbl} ({r}% p.a.) — reduces tenure by ~{dm} months"

/-- The details string of the `consolidate` branch (the `toFixed(1)`
renderings of the two rates are abstracted by `toString`). -/
def consolidateDetails (n : ℕ) (newRate weightedRate : ℚ) : String :=
  let c := toString n
  let nr := toString newRate
  let wr := toString weightedRate
  s!"Consolidate {c} loans into single facility at {nr}% (vs weighted avg {wr}%) — simpler compliance, one EMI"

/-- The details string of the `balance_transfer` branch. -/
def balanceTransferDetails (n : ℕ) (transferRate : ℚ) (recoveryMonths : ℤ) : String :=
  let c := toString n
  let tr := toString transferRate
  let rm := toString recoveryMonths
  s!"Transfer {c} high-rate loan(s) to {tr}% lender — processing fee ~1% one-time, recovered in {rm} months"

/-- The details string of the `extend_tenure` branch. -/
def extendTenureDetails : String :=
  "Extend all loan tenures by ~50% — EMI drops significantly, total interest increases but cash flow pressure eases immediately"

/-- The details string of the `hybrid` branch. -/
def hybridDetails (n : ℕ) (btRate : ℚ) : String :=
  let c := toString n
  let br := toString btRate
  s!"Balance-transfer top {c} costliest loan(s) to {br}% + accelerate repayment. Keep low-rate loans unchanged. Best risk-adjusted savings."

/-- The four locals `(newInterest, newEMI, newTenure, details)` assigned
by the `switch (strategyId)` of `simulateRestructure`. -/
structure Outcome where
  newInterest : ℚ
  newEMI : ℚ
  newTenure : ℤ
  details : String
deriving Repr

/-- The `switch (strategyId)` body of `simulateRestructure`, factored
over the baseline aggregates it closes over.  A JS `switch` on a string
is a sequence of equality tests, rendered here as an `if`-chain; the
`default` arm is the final `else`. -/
def strategyOutcome (loans : List Loan) (strategyId : String)
    (totalPrincipal currentTotalInterest currentMonthlyEMI : ℚ) (maxT : ℤ) : Outcome :=
  if strategyId = "prepay_highest" then
    match sortByRateDesc loans with
    | [] =>
      -- unreachable: the caller guarantees a non-empty portfolio (spec §7);
      -- in JS, `sorted[0]` would be `undefined` and `NaN` would propagate.
      ⟨0, 0, 0, ""⟩
    | highest :: rest =>
      let reducedTenure := max 6 (jsRound ((highest.tenure : ℚ) * 0.65))
      let newInterest := calcTotalInterest highest.amount highest.rate reducedTenure
        + (rest.map (fun l => calcTotalInterest l.amount l.rate l.tenure)).sum
      let monthlyFreed := currentMonthlyEMI * 0.15
      ⟨newInterest, currentMonthlyEMI + monthlyFreed, reducedTenure,
        prepayDetails highest reducedTenure⟩
  else if strategyId = "consolidate" then
    let weightedRate := (loans.map (fun l => l.rate * l.amount)).sum / totalPrincipal
    let newRate := max 9.5 (weightedRate - 2.5)
    let newTenure := jsRound ((maxT : ℚ) * 1.1)
    ⟨calcTotalInterest totalPrincipal newRate newTenure,
     calcEMI totalPrincipal newRate newTenure, newTenure,
     consolidateDetails loans.length newRate weightedRate⟩
  else if strategyId = "balance_transfer" then
    let highRateLoans := loans.filter (fun l => 11 < l.rate)
    let lowRateLoans := loans.filter (fun l => l.rate ≤ 11)
    let transferRate : ℚ := 9.75
    let newInterest :=
      (highRateLoans.map (fun l => calcTotalInterest l.amount transferRate l.tenure)).sum
        + (lowRateLoans.map (fun l => calcTotalInterest l.amount l.rate l.tenure)).sum
    let newEMI :=
      (highRateLoans.map (fun l => calcEMI l.amount transferRate l.tenure)).sum
        + (lowRateLoans.map (fun l => calcEMI l.amount l.rate l.tenure)).sum
    let recoveryMonths :=
      if 0 < currentMonthlyEMI - newEMI then
        jsRound ((highRateLoans.map Loan.amount).sum * 0.01 / (currentMonthlyEMI - newEMI))
      else 6
    ⟨newInterest, newEMI, maxT,
     balanceTransferDetails highRateLoans.length transferRate recoveryMonths⟩
  else if strategyId = "extend_tenure" then
    ⟨(loans.map (fun l => calcTotalInterest l.amount l.rate (jsRound ((l.tenure : ℚ) * 1.5)))).sum,
     (loans.map (fun l => calcEMI l.amount l.rate (jsRound ((l.tenure : ℚ) * 1.5)))).sum,
     jsRound ((maxT : ℚ) * 1.5), extendTenureDetails⟩
  else if strategyId = "hybrid" then
    let sorted2 := sortByRateDesc loans
    -- `Math.ceil(n / 2)` for a natural `n` is `(n + 1) / 2` in `ℕ`-division
    let half := (sorted2.length + 1) / 2
    let topHalf := sorted2.take half
    let bottomHalf := sorted2.drop half
    let btRate : ℚ := 9.75
    ⟨(topHalf.map (fun l => calcTotalInterest l.amount btRate (jsRound ((l.tenure : ℚ) * 0.8)))).sum
       + (bottomHalf.map (fun l => calcTotalInterest l.amount l.rate l.tenure)).sum,
     (topHalf.map (fun l => calcEMI l.amount btRate (jsRound ((l.tenure : ℚ) * 0.8)))).sum
       + (bottomHalf.map (fun l => calcEMI l.amount l.rate l.tenure)).sum,
     maxT, hybridDetails topHalf.length btRate⟩
  else
    ⟨currentTotalInterest, currentMonthlyEMI, maxT, ""⟩

/-- The record returned by `simulateRestructure`. -/
structure StrategyResult where
  strategyId : String
  currentTotalInterest : ℚ
  currentMonthlyEMI : ℚ
  currentTotalPayout : ℚ
  newInterest : ℚ
  newEMI : ℚ
  newTenure : ℤ
  savings : ℚ
  emiReduction : ℚ
  savingsPercent : ℚ
  details : String
  totalPrincipal : ℚ
deriving Repr

/-- `totalPrincipal`: `loans.reduce((s, l) => s + l.amount, 0)`. -/
def totalPrincipalOf (loans : List Loan) : ℚ := (loans.map Loan.amount).sum

/-- `currentTotalInterest`:
`loans.reduce((s, l) => s + calcTotalInterest(l.amount, l.rate, l.tenure), 0)`. -/
def currentInterestOf (loans : List Loan) : ℚ :=
  (loans.map (fun l => calcTotalInterest l.amount l.rate l.tenure)).sum

/-- `currentMonthlyEMI`:
`loans.reduce((s, l) => s + calcEMI(l.amount, l.rate, l.tenure), 0)`. -/
def currentEMIOf (loans : List Loan) : ℚ :=
  (loans.map (fun l => calcEMI l.amount l.rate l.tenure)).sum

/-- `strategyOutcome` applied to the baseline aggregates the `switch`
closes over inside `simulateRestructure`. -/
def outcomeOf (loans : List Loan) (strategyId : String) : Outcome :=
  strategyOutcome loans strategyId (totalPrincipalOf loans) (currentInterestOf loans)
    (currentEMIOf loans) (maxTenure loans)

/-- `simulateRestructure(loans, strategyId)` of `App.jsx`.  Note that the
returned `savings` field is the clamped `Math.max(0, savings)` while
`savingsPercent` is computed from the unclamped local `savings`. -/
def simulateRestructure (loans : List Loan) (strategyId : String) : StrategyResult :=
  let totalPrincipal := totalPrincipalOf loans
  let currentTotalInterest := currentInterestOf loans
  let currentMonthlyEMI := currentEMIOf loans
  let currentTotalPayout := totalPrincipal + currentTotalInterest
  let o := outcomeOf loans strategyId
  let savings := currentTotalInterest - o.newInterest
  let emiReduction := currentMonthlyEMI - o.newEMI
  { strategyId := strategyId
    currentTotalInterest := currentTotalInterest
    currentMonthlyEMI := currentMonthlyEMI
    currentTotalPayout := currentTotalPayout
    newInterest := o.newInterest
    newEMI := o.newEMI
    newTenure := o.newTenure
    savings := max 0 savings
    emiReduction := emiReduction
    savingsPercent := if 0 < currentTotalInterest then savings / currentTotalInterest * 100 else 0
    details := o.details
    totalPrincipal := totalPrincipal }

/-- The best-strategy selection
`results.reduce((best, r) => r.savings > best.savings ? r : best, results[0])`
shared by `generateReportHTML` and `runAnalysis`.  JS `reduce` with an
initial value folds over every element (the seed `results[0]` is also
visited, harmlessly compared with itself). -/
def bestResult : List StrategyResult → Option StrategyResult
  | [] => none
  | r :: rs => some ((r :: rs).foldl (fun best x => if best.savings < x.savings then x else best) r)

section ProjectionLemmas

variable (loans : List Loan) (strategyId : String)

@[simp] theorem simulateRestructure_currentTotalInterest :
    (simulateRestructure loans strategyId).currentTotalInterest = currentInterestOf loans := rfl

@[simp] theorem simulateRestructure_currentMonthlyEMI :
    (simulateRestructure loans strategyId).currentMonthlyEMI = currentEMIOf loans := rfl

@[simp] theorem simulateRestructure_totalPrincipal :
    (simulateRestructure loans strategyId).totalPrincipal = totalPrincipalOf loans := rfl

@[simp] theorem simulateRestructure_newInterest :
    (simulateRestructure loans strategyId).newInterest = (outcomeOf loans strategyId).newInterest := rfl

@[simp] theorem simulateRestructure_newEMI :
    (simulateRestructure loans strategyId).newEMI = (outcomeOf loans strategyId).newEMI := rfl

@[simp] theorem simulateRestructure_newTenure :
    (simulateRestructure loans strategyId).newTenure = (outcomeOf loans strategyId).newTenure := rfl

@[simp] theorem simulateRestructure_details :
    (simulateRestructure loans strategyId).details = (outcomeOf loans strategyId).details := rfl

@[simp] theorem simulateRestructure_savings :
    (simulateRestructure loans strategyId).savings
      = max 0 (currentInterestOf loans - (outcomeOf loans strategyId).newInterest) := rfl

@[simp] theorem simulateRestructure_emiReduction :
    (simulateRestructure loans strategyId).emiReduction
      = currentEMIOf loans - (outcomeOf loans strategyId).newEMI := rfl

@[simp] theorem simulateRestructure_savingsPercent :
    (simulateRestructure loans strategyId).savingsPercent
      = if 0 < currentInterestOf loans then
          (currentInterestOf loans - (outcomeOf loans strategyId).newInterest)
            / currentInterestOf loans * 100
        else 0 := rfl

end ProjectionLemmas

section SortLemmas

/-- Inserting a loan permutes consing it. -/
theorem insertDesc_perm (x : Loan) (l : List Loan) : List.Perm (insertDesc x l) (x :: l) := by
  induction l with
  | nil => exact List.Perm.refl _
  | cons y ys ih =>
    by_cases h : x.rate < y.rate
    · rw [insertDesc, if_pos h]
      exact (ih.cons y).trans (List.Perm.swap x y ys)
    · rw [insertDesc, if_neg h]

/-- The stable descending sort permutes the portfolio. -/
theorem sortByRateDesc_perm (l : List Loan) : List.Perm (sortByRateDesc l) l := by
  induction l with
  | nil => exact List.Perm.refl _
  | cons x xs ih => exact (insertDesc_perm x (sortByRateDesc xs)).trans (ih.cons x)

/-- Stability at the maximum: if `x` is the first loan of the portfolio
attaining the maximum rate (everything before it is strictly cheaper,
everything after it is no more expensive), then `x` is the head of the
descending sort and the tail is a permutation of the remaining loans. -/
theorem sortByRateDesc_firstMax (l₁ : List Loan) (x : Loan) (l₂ : List Loan)
    (hlt : ∀ y ∈ l₁, y.rate < x.rate) (hle : ∀ y ∈ l₂, y.rate ≤ x.rate) :
    ∃ t, sortByRateDesc (l₁ ++ x :: l₂) = x :: t ∧ List.Perm t (l₁ ++ l₂) := by
  induction l₁ with
  | nil =>
    have hperm := sortByRateDesc_perm l₂
    cases hs : sortByRateDesc l₂ with
    | nil =>
      have h2 : l₂ = [] := (hs ▸ hperm : List.Perm [] l₂).symm.eq_nil
      exact ⟨[], by simp [sortByRateDesc, hs, insertDesc], by simp [h2]⟩
    | cons y ys =>
      have hyperm : List.Perm (y :: ys) l₂ := hs ▸ hperm
      have hy : y ∈ l₂ := hyperm.mem_iff.mp (by simp)
      have hxy : ¬ x.rate < y.rate := not_lt.mpr (hle y hy)
      refine ⟨y :: ys, ?_, ?_⟩
      · show insertDesc x (sortByRateDesc l₂) = x :: y :: ys
        rw [hs, insertDesc, if_neg hxy]
      · simpa using hyperm
  | cons a l₁x ih =>
    have ha : a.rate < x.rate := hlt a (by simp)
    obtain ⟨t, ht, htp⟩ := ih (fun y hy => hlt y (by simp [hy]))
    refine ⟨insertDesc a t, ?_, ?_⟩
    · show insertDesc a (sortByRateDesc (l₁x ++ x :: l₂)) = x :: insertDesc a t
      rw [ht, insertDesc, if_pos ha]
    · exact (insertDesc_perm a t).trans (htp.cons a)

end SortLemmas

section MaxTenureLemmas

/-- The accumulator is below a tenure `foldl max`. -/
theorem foldl_maxTenure_init_le (l : List Loan) (a : ℤ) :
    a ≤ l.foldl (fun m l2 => max m l2.tenure) a := by
  induction l generalizing a with
  | nil => exact le_refl a
  | cons x xs ih => exact le_trans (le_max_left _ _) (ih (max a x.tenure))

/-- Every listed tenure is below a tenure `foldl max`. -/
theorem foldl_maxTenure_le (l : List Loan) (x : Loan) :
    ∀ a : ℤ, x ∈ l → x.tenure ≤ l.foldl (fun m l2 => max m l2.tenure) a := by
  induction l with
  | nil => intro a hx; cases hx
  | cons y ys ih =>
    intro a hx
    rcases List.mem_cons.mp hx with h | h
    · subst h
      exact le_trans (le_max_right a x.tenure) (foldl_maxTenure_init_le ys _)
    · exact ih (max a y.tenure) h

/-- A tenure `foldl max` is the accumulator or a listed tenure. -/
theorem foldl_maxTenure_eq (l : List Loan) :
    ∀ a : ℤ, l.foldl (fun m l2 => max m l2.tenure) a = a ∨
      ∃ x ∈ l, l.foldl (fun m l2 => max m l2.tenure) a = x.tenure := by
  induction l with
  | nil => exact fun a => Or.inl rfl
  | cons y ys ih =>
    intro a
    rcases ih (max a y.tenure) with h | ⟨x, hx, heq⟩
    · rcases le_total a y.tenure with hay | hya
      · exact Or.inr ⟨y, by simp, by rw [List.foldl_cons, h, max_eq_right hay]⟩
      · exact Or.inl (by rw [List.foldl_cons, h, max_eq_left hya])
    · exact Or.inr ⟨x, by simp [hx], by rw [List.foldl_cons, heq]⟩

/-- `maxTenure` bounds every loan's tenure. -/
theorem le_maxTenure (loans : List Loan) (x : Loan) (hx : x ∈ loans) :
    x.tenure ≤ maxTenure loans := by
  cases loans with
  | nil => cases hx
  | cons y ys =>
    rcases List.mem_cons.mp hx with h | h
    · subst h; exact foldl_maxTenure_init_le ys x.tenure
    · exact foldl_maxTenure_le ys x y.tenure h

/-- On a non-empty portfolio, `maxTenure` is one of the tenures. -/
theorem maxTenure_mem (loans : List Loan) (h : loans ≠ []) :
    ∃ x ∈ loans, maxTenure loans = x.tenure := by
  cases loans with
  | nil => exact absurd rfl h
  | cons y ys =>
    rcases foldl_maxTenure_eq ys y.tenure with h1 | ⟨x, hx, hx2⟩
    · exact ⟨y, by simp, h1⟩
    · exact ⟨x, by simp [hx], hx2⟩

end MaxTenureLemmas

section PartitionLemma

/-- Summing a function over the `rate > 11` loans and another over the
`rate <= 11` loans is one conditional pass over the portfolio. -/
theorem sum_partition_rate (f g : Loan → ℚ) (l : List Loan) :
    ((l.filter (fun x => 11 < x.rate)).map f).sum
      + ((l.filter (fun x => x.rate ≤ 11)).map g).sum
      = (l.map (fun x => if 11 < x.rate then f x else g x)).sum := by
  induction l with
  | nil => simp
  | cons a t ih =>
    by_cases h : (11 : ℚ) < a.rate
    · have h2 : ¬ a.rate ≤ 11 := not_le.mpr h
      simp only [List.filter_cons, List.map_cons, List.sum_cons, h, h2,
        decide_True, decide_False, Bool.false_eq_true, if_true, if_false]
      rw [← ih]; ring
    · have h2 : a.rate ≤ 11 := not_lt.mp h
      simp only [List.filter_cons, List.map_cons, List.sum_cons, h, h2,
        decide_True, decide_False, Bool.false_eq_true, if_true, if_false]
      rw [← ih]; ring

end PartitionLemma

section BestLemmas

/-- The fold inside `bestResult`: seed `b`, remaining results `l`. -/
def pickBest (b : StrategyResult) (l : List StrategyResult) : StrategyResult :=
  l.foldl (fun best x => if best.savings < x.savings then x else best) b

/-- `bestResult` on a non-empty list is the fold seeded with the head
(the head is also visited by `reduce`, harmlessly). -/
theorem bestResult_eq (r : StrategyResult) (rs : List StrategyResult) :
    bestResult (r :: rs) = some (pickBest r rs) := by
  show some ((r :: rs).foldl (fun best x => if best.savings < x.savings then x else best) r)
      = some (pickBest r rs)
  rw [List.foldl_cons, ite_self]
  rfl

/-- The fold returns the first entry of `b :: l` attaining the maximal
`savings`: everything is bounded by it, and everything strictly before it
in the list is strictly smaller. -/
theorem pickBest_firstMax (l : List StrategyResult) :
    ∀ b : StrategyResult,
      (∀ y ∈ b :: l, y.savings ≤ (pickBest b l).savings) ∧
      ∃ L₁ L₂, b :: l = L₁ ++ pickBest b l :: L₂ ∧
        ∀ y ∈ L₁, y.savings < (pickBest b l).savings := by
  induction l with
  | nil =>
    intro b
    refine ⟨?_, [], [], rfl, by simp⟩
    intro y hy
    rcases List.mem_cons.mp hy with h | h
    · subst h; exact le_refl _
    · cases h
  | cons x xs ih =>
    intro b
    by_cases h : b.savings < x.savings
    · have hp : pickBest b (x :: xs) = pickBest x xs := by
        simp only [pickBest, List.foldl_cons, if_pos h]
      obtain ⟨hle, L₁, L₂, hdec, hltL⟩ := ih x
      rw [hp]
      refine ⟨?_, b :: L₁, L₂, ?_, ?_⟩
      · intro y hy
        rcases List.mem_cons.mp hy with h2 | h2
        · subst h2; exact le_of_lt (lt_of_lt_of_le h (hle x (by simp)))
        · exact hle y h2
      · rw [List.cons_append, ← hdec]
      · intro y hy
        rcases List.mem_cons.mp hy with h2 | h2
        · subst h2; exact lt_of_lt_of_le h (hle x (by simp))
        · exact hltL y h2
    · have hxb : x.savings ≤ b.savings := not_lt.mp h
      have hp : pickBest b (x :: xs) = pickBest b xs := by
        simp only [pickBest, List.foldl_cons, if_neg h]
      obtain ⟨hle, L₁, L₂, hdec, hltL⟩ := ih b
      rw [hp]
      constructor
      · intro y hy
        rcases List.mem_cons.mp hy with h2 | h2
        · subst h2; exact hle y (by simp)
        · rcases List.mem_cons.mp h2 with h3 | h3
          · subst h3; exact le_trans hxb (hle b (by simp))
          · exact hle y (by simp [h3])
      · cases L₁ with
        | nil =>
          rw [List.nil_append] at hdec
          obtain ⟨hb, hxs⟩ := List.cons_eq_cons.mp hdec
          refine ⟨[], x :: xs, ?_, by simp⟩
          rw [List.nil_append, ← hb]
        | cons c L₁x =>
          rw [List.cons_append] at hdec
          obtain ⟨hc, hxs⟩ := List.cons_eq_cons.mp hdec
          have hbm : b.savings < (pickBest b xs).savings := by
            have hcs := hltL c (by simp)
            rw [← hc] at hcs
            exact hcs
          refine ⟨b :: x :: L₁x, L₂, ?_, ?_⟩
          · rw [List.cons_append, List.cons_append, ← hxs]
          · intro y hy
            rcases List.mem_cons.mp hy with h2 | h2
            · subst h2; exact hbm
            · rcases List.mem_cons.mp h2 with h3 | h3
              · subst h3; exact lt_of_le_of_lt hxb hbm
              · exact hltL y (by simp [h3])

end BestLemmas

/-- C4: `calcEMI` returns `0` whenever `principal <= 0` or
`tenureMonths <= 0` (no error raised); otherwise, with monthly rate
`r = annualRate / 100 / 12`, it returns `principal / tenureMonths` when
`r == 0` and the annuity formula
`principal * r * (1+r)^tenure / ((1+r)^tenure - 1)` when `r != 0`. -/
theorem calcEMI_spec (principal annualRate : ℚ) (tenureMonths : ℤ) :
    (principal ≤ 0 ∨ tenureMonths ≤ 0 → calcEMI principal annualRate tenureMonths = 0) ∧
    (0 < principal → 0 < tenureMonths → annualRate / 100 / 12 = 0 →
      calcEMI principal annualRate tenureMonths = principal / (tenureMonths : ℚ)) ∧
    (0 < principal → 0 < tenureMonths → annualRate / 100 / 12 ≠ 0 →
      calcEMI principal annualRate tenureMonths
        = principal * (annualRate / 100 / 12)
            * (1 + annualRate / 100 / 12) ^ tenureMonths.toNat
          / ((1 + annualRate / 100 / 12) ^ tenureMonths.toNat - 1)) := by
  refine ⟨fun h => ?_, fun hp ht hr => ?_, fun hp ht hr => ?_⟩
  · rw [calcEMI, if_pos h]
  · rw [calcEMI, if_neg (by push_neg; exact ⟨hp, ht⟩)]
    show (if annualRate / 100 / 12 = 0 then _ else _) = _
    rw [if_pos hr]
  · rw [calcEMI, if_neg (by push_neg; exact ⟨hp, ht⟩)]
    show (if annualRate / 100 / 12 = 0 then _ else _) = _
    rw [if_neg hr]

/-- Witness for `calcEMI_spec`, exercising its three branches at
concrete inputs. -/
theorem calcEMI_spec_witness :
    calcEMI (-5) 10 12 = 0 ∧
    calcEMI 120000 0 12 = 120000 / ((12 : ℤ) : ℚ) ∧
    calcEMI 1200 12 1
      = 1200 * (12 / 100 / 12) * (1 + 12 / 100 / 12) ^ (1 : ℤ).toNat
        / ((1 + 12 / 100 / 12) ^ (1 : ℤ).toNat - 1) :=
  ⟨(calcEMI_spec (-5) 10 12).1 (Or.inl (by norm_num)),
   (calcEMI_spec 120000 0 12).2.1 (by norm_num) (by norm_num) (by norm_num),
   (calcEMI_spec 1200 12 1).2.2 (by norm_num) (by norm_num) (by norm_num)⟩

/-- C5: `calcTotalInterest(P, R, T) = calcEMI(P, R, T) * T - P` for every
principal, rate and tenure — the identity holds by construction. -/
theorem calcTotalInterest_spec (principal annualRate : ℚ) (tenureMonths : ℤ) :
    calcTotalInterest principal annualRate tenureMonths
      = calcEMI principal annualRate tenureMonths * (tenureMonths : ℚ) - principal := rfl

/-- C3: the returned `savings` field is clamped by `Math.max(0, ·)`, so it
is non-negative for every portfolio and every strategy identifier. -/
theorem savings_nonneg (loans : List Loan) (strategyId : String) (h : loans ≠ []) :
    0 ≤ (simulateRestructure loans strategyId).savings := by
  rw [simulateRestructure_savings]
  exact le_max_left 0 _

/-- Witness for `savings_nonneg` on a concrete one-loan portfolio with an
unrecognized strategy identifier. -/
theorem savings_nonneg_witness :
    0 ≤ (simulateRestructure [⟨"term", 1000, 12, 12⟩] "extend_tenure").savings :=
  savings_nonneg [⟨"term", 1000, 12, 12⟩] "extend_tenure" (by simp)

/-- C1 (amended): `savingsPercent` is computed from the UNCLAMPED raw
difference `currentTotalInterest - newInterest` (the local `savings`
before `Math.max(0, ·)`), divided by `currentTotalInterest` and scaled by
100, when `currentTotalInterest > 0`; it is `0` when
`currentTotalInterest == 0`, with no division error. -/
theorem savingsPercent_spec (loans : List Loan) (strategyId : String) :
    (0 < (simulateRestructure loans strategyId).currentTotalInterest →
      (simulateRestructure loans strategyId).savingsPercent
        = ((simulateRestructure loans strategyId).currentTotalInterest
            - (simulateRestructure loans strategyId).newInterest)
          / (simulateRestructure loans strategyId).currentTotalInterest * 100) ∧
    ((simulateRestructure loans strategyId).currentTotalInterest = 0 →
      (simulateRestructure loans strategyId).savingsPercent = 0) := by
  simp only [simulateRestructure_savingsPercent, simulateRestructure_currentTotalInterest,
    simulateRestructure_newInterest]
  constructor
  · intro h; rw [if_pos h]
  · intro h; rw [h]; simp

/-- Witness for `savingsPercent_spec`: a concrete portfolio with positive
current interest (first conjunct) and one with zero current interest, a
zero-rate zero-principal degenerate loan (second conjunct). -/
theorem savingsPercent_spec_witness :
    (simulateRestructure [⟨"term", 1200, 12, 1⟩] "extend_tenure").savingsPercent
        = ((simulateRestructure [⟨"term", 1200, 12, 1⟩] "extend_tenure").currentTotalInterest
            - (simulateRestructure [⟨"term", 1200, 12, 1⟩] "extend_tenure").newInterest)
          / (simulateRestructure [⟨"term", 1200, 12, 1⟩] "extend_tenure").currentTotalInterest
          * 100 ∧
      (simulateRestructure [⟨"term", 0, 0, 12⟩] "consolidate").savingsPercent = 0 :=
  ⟨(savingsPercent_spec [⟨"term", 1200, 12, 1⟩] "extend_tenure").1 (by
      simp [currentInterestOf, calcTotalInterest, calcEMI]
      norm_num),
   (savingsPercent_spec [⟨"term", 0, 0, 12⟩] "consolidate").2 (by
      simp [currentInterestOf, calcTotalInterest, calcEMI])⟩

/-- C1 counterexample: on the one-loan portfolio
`[{term, 1200, 12%, 1 month}]` with strategy `extend_tenure`, the new
total interest exceeds the current one, so the returned (clamped)
`savings` field is `0` while `savingsPercent` is negative — the claimed
identity `savingsPercent = savings / currentTotalInterest * 100` fails
even though `currentTotalInterest > 0`. -/
theorem savingsPercent_counterexample :
    0 < (simulateRestructure [⟨"term", 1200, 12, 1⟩] "extend_tenure").currentTotalInterest ∧
      (simulateRestructure [⟨"term", 1200, 12, 1⟩] "extend_tenure").savingsPercent
        ≠ (simulateRestructure [⟨"term", 1200, 12, 1⟩] "extend_tenure").savings
            / (simulateRestructure [⟨"term", 1200, 12, 1⟩] "extend_tenure").currentTotalInterest
            * 100 := by
  constructor
  · simp [currentInterestOf, calcTotalInterest, calcEMI]
    norm_num
  · simp [simulateRestructure, outcomeOf, strategyOutcome, currentInterestOf, currentEMIOf,
      totalPrincipalOf, calcTotalInterest, calcEMI, jsRound, maxTenure]
    norm_num
    try simp
    try norm_num

/-- C8: for every strategy identifier outside the five declared in
`RESTRUCTURE_STRATEGIES`, the simulator returns the baseline unchanged:
`newInterest = currentTotalInterest`, `newEMI = currentMonthlyEMI`,
`savings = 0`, `emiReduction = 0`, and an empty details string — no
error is raised. -/
theorem default_strategy_spec (loans : List Loan) (strategyId : String) (h : loans ≠ [])
    (hid : strategyId ∉ RESTRUCTURE_STRATEGIES.map Strategy.id) :
    (simulateRestructure loans strategyId).newInterest
        = (simulateRestructure loans strategyId).currentTotalInterest ∧
      (simulateRestructure loans strategyId).newEMI
        = (simulateRestructure loans strategyId).currentMonthlyEMI ∧
      (simulateRestructure loans strategyId).savings = 0 ∧
      (simulateRestructure loans strategyId).emiReduction = 0 ∧
      (simulateRestructure loans strategyId).details = "" := by
  simp only [RESTRUCTURE_STRATEGIES, List.map_cons, List.map_nil, List.mem_cons,
    List.mem_singleton, not_or] at hid
  obtain ⟨h1, h2, h3, h4, h5, -⟩ := hid
  have ho : outcomeOf loans strategyId
      = ⟨currentInterestOf loans, currentEMIOf loans, maxTenure loans, ""⟩ := by
    rw [outcomeOf, strategyOutcome, if_neg h1, if_neg h2, if_neg h3, if_neg h4, if_neg h5]
  refine ⟨?_, ?_, ?_, ?_, ?_⟩ <;>
    simp [ho]

/-- Witness for `default_strategy_spec` with the unrecognized identifier
`"debt_snowball"` on a concrete one-loan portfolio. -/
theorem default_strategy_spec_witness :
    (simulateRestructure [⟨"term", 1000, 12, 12⟩] "debt_snowball").newInterest
        = (simulateRestructure [⟨"term", 1000, 12, 12⟩] "debt_snowball").currentTotalInterest ∧
      (simulateRestructure [⟨"term", 1000, 12, 12⟩] "debt_snowball").newEMI
        = (simulateRestructure [⟨"term", 1000, 12, 12⟩] "debt_snowball").currentMonthlyEMI ∧
      (simulateRestructure [⟨"term", 1000, 12, 12⟩] "debt_snowball").savings = 0 ∧
      (simulateRestructure [⟨"term", 1000, 12, 12⟩] "debt_snowball").emiReduction = 0 ∧
      (simulateRestructure [⟨"term", 1000, 12, 12⟩] "debt_snowball").details = "" :=
  default_strategy_spec [⟨"term", 1000, 12, 12⟩] "debt_snowball" (by simp)
    (by simp [RESTRUCTURE_STRATEGIES])

/-- C6: for `balance_transfer`, every loan with `rate > 11` contributes
recomputed at the fixed transfer rate `9.75` with its tenure unchanged,
and every loan with `rate <= 11` (inclusive) contributes with its
original rate and tenure; `newTenure` equals `maxTenure`, the maximum
tenure across the portfolio. -/
theorem balance_transfer_spec (loans : List Loan) (h : loans ≠ []) :
    (simulateRestructure loans "balance_transfer").newInterest
        = (loans.map (fun l =>
            if 11 < l.rate then calcTotalInterest l.amount 9.75 l.tenure
            else calcTotalInterest l.amount l.rate l.tenure)).sum ∧
      (simulateRestructure loans "balance_transfer").newEMI
        = (loans.map (fun l =>
            if 11 < l.rate then calcEMI l.amount 9.75 l.tenure
            else calcEMI l.amount l.rate l.tenure)).sum ∧
      (simulateRestructure loans "balance_transfer").newTenure = maxTenure loans ∧
      (∀ l ∈ loans, l.tenure ≤ maxTenure loans) ∧
      ∃ l ∈ loans, maxTenure loans = l.tenure := by
  refine ⟨?_, ?_, ?_, fun l hl => le_maxTenure loans l hl, maxTenure_mem loans h⟩
  · rw [simulateRestructure_newInterest]
    have hb : (outcomeOf loans "balance_transfer").newInterest
        = ((loans.filter (fun x => 11 < x.rate)).map
            (fun l => calcTotalInterest l.amount 9.75 l.tenure)).sum
          + ((loans.filter (fun x => x.rate ≤ 11)).map
            (fun l => calcTotalInterest l.amount l.rate l.tenure)).sum := by
      simp [outcomeOf, strategyOutcome]
    rw [hb, sum_partition_rate]
  · rw [simulateRestructure_newEMI]
    have hb : (outcomeOf loans "balance_transfer").newEMI
        = ((loans.filter (fun x => 11 < x.rate)).map
            (fun l => calcEMI l.amount 9.75 l.tenure)).sum
          + ((loans.filter (fun x => x.rate ≤ 11)).map
            (fun l => calcEMI l.amount l.rate l.tenure)).sum := by
      simp [outcomeOf, strategyOutcome]
    rw [hb, sum_partition_rate]
  · rw [simulateRestructure_newTenure]
    simp [outcomeOf, strategyOutcome]

/-- Witness for `balance_transfer_spec` on a concrete two-loan portfolio
with one loan above and one at the 11% threshold. -/
theorem balance_transfer_spec_witness :
    (simulateRestructure [⟨"ccod", 1000, 14, 2⟩, ⟨"mudra", 500, 11, 3⟩] "balance_transfer").newInterest
        = ([⟨"ccod", 1000, 14, 2⟩, ⟨"mudra", 500, 11, 3⟩].map (fun l : Loan =>
            if 11 < l.rate then calcTotalInterest l.amount 9.75 l.tenure
            else calcTotalInterest l.amount l.rate l.tenure)).sum ∧
      (simulateRestructure [⟨"ccod", 1000, 14, 2⟩, ⟨"mudra", 500, 11, 3⟩] "balance_transfer").newEMI
        = ([⟨"ccod", 1000, 14, 2⟩, ⟨"mudra", 500, 11, 3⟩].map (fun l : Loan =>
            if 11 < l.rate then calcEMI l.amount 9.75 l.tenure
            else calcEMI l.amount l.rate l.tenure)).sum ∧
      (simulateRestructure [⟨"ccod", 1000, 14, 2⟩, ⟨"mudra", 500, 11, 3⟩] "balance_transfer").newTenure
        = maxTenure [⟨"ccod", 1000, 14, 2⟩, ⟨"mudra", 500, 11, 3⟩] ∧
      (∀ l ∈ [⟨"ccod", 1000, 14, 2⟩, ⟨"mudra", 500, 11, 3⟩],
        Loan.tenure l ≤ maxTenure [⟨"ccod", 1000, 14, 2⟩, ⟨"mudra", 500, 11, 3⟩]) ∧
      ∃ l ∈ [⟨"ccod", 1000, 14, 2⟩, ⟨"mudra", 500, 11, 3⟩],
        maxTenure [⟨"ccod", 1000, 14, 2⟩, ⟨"mudra", 500, 11, 3⟩] = Loan.tenure l :=
  balance_transfer_spec [⟨"ccod", 1000, 14, 2⟩, ⟨"mudra", 500, 11, 3⟩] (by simp)

/-- C7: for `consolidate`, the simulator uses the single rate
`max(9.5, weightedAvg - 2.5)` — `weightedAvg` being the principal-weighted
average rate — and the tenure `round(maxTenure * 1.1)`, and obtains
`newInterest`/`newEMI` by one application of the calculator to the total
principal at that rate and tenure. -/
theorem consolidate_spec (loans : List Loan) (h : loans ≠ [])
    (hp : 0 < totalPrincipalOf loans) :
    (simulateRestructure loans "consolidate").newTenure
        = jsRound ((maxTenure loans : ℚ) * 1.1) ∧
      (simulateRestructure loans "consolidate").newInterest
        = calcTotalInterest (totalPrincipalOf loans)
            (max 9.5 ((loans.map (fun l => l.rate * l.amount)).sum / totalPrincipalOf loans - 2.5))
            (jsRound ((maxTenure loans : ℚ) * 1.1)) ∧
      (simulateRestructure loans "consolidate").newEMI
        = calcEMI (totalPrincipalOf loans)
            (max 9.5 ((loans.map (fun l => l.rate * l.amount)).sum / totalPrincipalOf loans - 2.5))
            (jsRound ((maxTenure loans : ℚ) * 1.1)) := by
  refine ⟨?_, ?_, ?_⟩ <;> simp [outcomeOf, strategyOutcome]

/-- Witness for `consolidate_spec` on a concrete two-loan portfolio with
positive total principal. -/
theorem consolidate_spec_witness :
    (simulateRestructure [⟨"term", 1000, 12, 2⟩, ⟨"mudra", 500, 10, 3⟩] "consolidate").newTenure
        = jsRound ((maxTenure [⟨"term", 1000, 12, 2⟩, ⟨"mudra", 500, 10, 3⟩] : ℚ) * 1.1) ∧
      (simulateRestructure [⟨"term", 1000, 12, 2⟩, ⟨"mudra", 500, 10, 3⟩] "consolidate").newInterest
        = calcTotalInterest (totalPrincipalOf [⟨"term", 1000, 12, 2⟩, ⟨"mudra", 500, 10, 3⟩])
            (max 9.5 (([⟨"term", 1000, 12, 2⟩, ⟨"mudra", 500, 10, 3⟩].map (fun l : Loan => l.rate * l.amount)).sum
              / totalPrincipalOf [⟨"term", 1000, 12, 2⟩, ⟨"mudra", 500, 10, 3⟩] - 2.5))
            (jsRound ((maxTenure [⟨"term", 1000, 12, 2⟩, ⟨"mudra", 500, 10, 3⟩] : ℚ) * 1.1)) ∧
      (simulateRestructure [⟨"term", 1000, 12, 2⟩, ⟨"mudra", 500, 10, 3⟩] "consolidate").newEMI
        = calcEMI (totalPrincipalOf [⟨"term", 1000, 12, 2⟩, ⟨"mudra", 500, 10, 3⟩])
            (max 9.5 (([⟨"term", 1000, 12, 2⟩, ⟨"mudra", 500, 10, 3⟩].map (fun l : Loan => l.rate * l.amount)).sum
              / totalPrincipalOf [⟨"term", 1000, 12, 2⟩, ⟨"mudra", 500, 10, 3⟩] - 2.5))
            (jsRound ((maxTenure [⟨"term", 1000, 12, 2⟩, ⟨"mudra", 500, 10, 3⟩] : ℚ) * 1.1)) :=
  consolidate_spec [⟨"term", 1000, 12, 2⟩, ⟨"mudra", 500, 10, 3⟩] (by simp)
    (by simp [totalPrincipalOf]; norm_num)

/-- Core of the `prepay_highest` branch: on a portfolio decomposed as
`l₁ ++ x :: l₂` where `x` is the first loan attaining the maximum rate
(everything before is strictly cheaper, everything after no more
expensive), the stable descending sort puts `x` first, so the branch
shrinks `x`'s tenure to `max(6, round(tenure * 0.65))`, recomputes the
total interest with only `x`'s tenure changed, and derives `newTenure`
and the details text from `x`. -/
theorem prepay_core (l₁ : List Loan) (x : Loan) (l₂ : List Loan)
    (hlt : ∀ y ∈ l₁, y.rate < x.rate) (hle : ∀ y ∈ l₂, y.rate ≤ x.rate) :
    (simulateRestructure (l₁ ++ x :: l₂) "prepay_highest").newTenure
        = max 6 (jsRound ((x.tenure : ℚ) * 0.65)) ∧
      (simulateRestructure (l₁ ++ x :: l₂) "prepay_highest").newInterest
        = calcTotalInterest x.amount x.rate (max 6 (jsRound ((x.tenure : ℚ) * 0.65)))
          + ((l₁ ++ l₂).map (fun l => calcTotalInterest l.amount l.rate l.tenure)).sum ∧
      (simulateRestructure (l₁ ++ x :: l₂) "prepay_highest").details
        = prepayDetails x (max 6 (jsRound ((x.tenure : ℚ) * 0.65))) := by
  obtain ⟨t, ht, htp⟩ := sortByRateDesc_firstMax l₁ x l₂ hlt hle
  have hsum : (t.map (fun l => calcTotalInterest l.amount l.rate l.tenure)).sum
      = ((l₁ ++ l₂).map (fun l => calcTotalInterest l.amount l.rate l.tenure)).sum :=
    (htp.map _).sum_eq
  refine ⟨?_, ?_, ?_⟩ <;>
    simp [outcomeOf, strategyOutcome, ht, hsum]

/-- C2 counterexample: on the one-loan portfolio `[{term, 1000, 12%, 3
months}]` — whose maximum-rate loan is trivially unique — the modeled
tenure `max(6, round(3 * 0.65)) = 6` does NOT strictly decrease: the
result's `newTenure` is `6`, which is greater than the original tenure
`3`. -/
theorem prepay_counterexample :
    (simulateRestructure [⟨"term", 1000, 12, 3⟩] "prepay_highest").newTenure = 6 ∧
      ¬ (simulateRestructure [⟨"term", 1000, 12, 3⟩] "prepay_highest").newTenure
          < (⟨"term", 1000, 12, 3⟩ : Loan).tenure := by
  have h6 : (simulateRestructure [⟨"term", 1000, 12, 3⟩] "prepay_highest").newTenure = 6 := by
    simp [outcomeOf, strategyOutcome, sortByRateDesc, insertDesc, jsRound]
    norm_num
  refine ⟨h6, ?_⟩
  rw [h6]
  norm_num

/-- C2 (amended): for a portfolio with a unique maximum-rate loan `x`
(decomposed as `l₁ ++ x :: l₂`, every other loan strictly cheaper),
`prepay_highest` models `x`'s tenure as `max(6, round(tenure * 0.65))`,
the result's `newTenure` equals this modeled tenure, and the interest is
recomputed with all other loans' tenures unchanged — unconditionally;
the modeled tenure strictly decreases provided the loan's original
tenure exceeds 6, while for tenures of at most 6 months the clamp at 6
makes it greater than or equal to the original instead. -/
theorem prepay_unique_max_spec (l₁ : List Loan) (x : Loan) (l₂ : List Loan)
    (hmax : ∀ y ∈ l₁ ++ l₂, y.rate < x.rate) :
    (simulateRestructure (l₁ ++ x :: l₂) "prepay_highest").newTenure
        = max 6 (jsRound ((x.tenure : ℚ) * 0.65)) ∧
      (simulateRestructure (l₁ ++ x :: l₂) "prepay_highest").newInterest
        = calcTotalInterest x.amount x.rate (max 6 (jsRound ((x.tenure : ℚ) * 0.65)))
          + ((l₁ ++ l₂).map (fun l => calcTotalInterest l.amount l.rate l.tenure)).sum ∧
      (6 < x.tenure → max 6 (jsRound ((x.tenure : ℚ) * 0.65)) < x.tenure) ∧
      (x.tenure ≤ 6 → x.tenure ≤ max 6 (jsRound ((x.tenure : ℚ) * 0.65))) := by
  have hcore := prepay_core l₁ x l₂
    (fun y hy => hmax y (List.mem_append_left _ hy))
    (fun y hy => le_of_lt (hmax y (List.mem_append_right _ hy)))
  refine ⟨hcore.1, hcore.2.1, fun ht6 => ?_, fun ht6 => le_trans ht6 (le_max_left 6 _)⟩
  have h7 : (7 : ℚ) ≤ (x.tenure : ℚ) := by exact_mod_cast ht6
  have h1 : jsRound ((x.tenure : ℚ) * 0.65) < x.tenure := by
    rw [jsRound, Int.floor_lt]
    nlinarith
  exact max_lt ht6 h1

/-- Witness for `prepay_unique_max_spec`, applied twice: once on the
portfolio `[{ccod, 800, 14%, 12}, {mudra, 500, 10%, 3}]` whose unique
maximum-rate loan has tenure `12 > 6` (strict decrease discharged), and
once on `[{ccod, 800, 14%, 5}, {mudra, 500, 10%, 3}]` whose maximum-rate
loan has tenure `5 <= 6` (clamp-at-6 case discharged). -/
theorem prepay_unique_max_spec_witness :
    ((simulateRestructure [⟨"ccod", 800, 14, 12⟩, ⟨"mudra", 500, 10, 3⟩] "prepay_highest").newTenure
        = max 6 (jsRound (((⟨"ccod", 800, 14, 12⟩ : Loan).tenure : ℚ) * 0.65)) ∧
      (simulateRestructure [⟨"ccod", 800, 14, 12⟩, ⟨"mudra", 500, 10, 3⟩] "prepay_highest").newInterest
        = calcTotalInterest 800 14 (max 6 (jsRound (((⟨"ccod", 800, 14, 12⟩ : Loan).tenure : ℚ) * 0.65)))
          + ([⟨"mudra", 500, 10, 3⟩].map (fun l : Loan => calcTotalInterest l.amount l.rate l.tenure)).sum ∧
      max 6 (jsRound (((⟨"ccod", 800, 14, 12⟩ : Loan).tenure : ℚ) * 0.65))
        < (⟨"ccod", 800, 14, 12⟩ : Loan).tenure) ∧
    ((simulateRestructure [⟨"ccod", 800, 14, 5⟩, ⟨"mudra", 500, 10, 3⟩] "prepay_highest").newTenure
        = max 6 (jsRound (((⟨"ccod", 800, 14, 5⟩ : Loan).tenure : ℚ) * 0.65)) ∧
      (⟨"ccod", 800, 14, 5⟩ : Loan).tenure
        ≤ max 6 (jsRound (((⟨"ccod", 800, 14, 5⟩ : Loan).tenure : ℚ) * 0.65))) := by
  have h12 := prepay_unique_max_spec [] ⟨"ccod", 800, 14, 12⟩ [⟨"mudra", 500, 10, 3⟩]
    (by intro y hy; simp at hy; subst hy; norm_num)
  have h5 := prepay_unique_max_spec [] ⟨"ccod", 800, 14, 5⟩ [⟨"mudra", 500, 10, 3⟩]
    (by intro y hy; simp at hy; subst hy; norm_num)
  exact ⟨⟨h12.1, h12.2.1, h12.2.2.1 (by norm_num)⟩, h5.1, h5.2.2.2 (by norm_num)⟩

/-- C10: when two or more loans share the maximum rate, the stable
descending sort keeps the original order among them, so `prepay_highest`
applies the tenure reduction to the FIRST maximum-rate loan in original
portfolio order, and the result's `newTenure` and details text are
derived from that specific loan. -/
theorem prepay_tie_first_spec (l₁ : List Loan) (x : Loan) (l₂ : List Loan)
    (hbefore : ∀ y ∈ l₁, y.rate < x.rate) (hafter : ∀ y ∈ l₂, y.rate ≤ x.rate)
    (htie : ∃ y ∈ l₂, y.rate = x.rate) :
    (simulateRestructure (l₁ ++ x :: l₂) "prepay_highest").newTenure
        = max 6 (jsRound ((x.tenure : ℚ) * 0.65)) ∧
      (simulateRestructure (l₁ ++ x :: l₂) "prepay_highest").newInterest
        = calcTotalInterest x.amount x.rate (max 6 (jsRound ((x.tenure : ℚ) * 0.65)))
          + ((l₁ ++ l₂).map (fun l => calcTotalInterest l.amount l.rate l.tenure)).sum ∧
      (simulateRestructure (l₁ ++ x :: l₂) "prepay_highest").details
        = prepayDetails x (max 6 (jsRound ((x.tenure : ℚ) * 0.65))) :=
  prepay_core l₁ x l₂ hbefore hafter

/-- Witness for `prepay_tie_first_spec`: two loans both at 14%; the
reduction applies to the first of them. -/
theorem prepay_tie_first_spec_witness :
    (simulateRestructure [⟨"ccod", 800, 14, 12⟩, ⟨"working", 600, 14, 24⟩] "prepay_highest").newTenure
        = max 6 (jsRound (((⟨"ccod", 800, 14, 12⟩ : Loan).tenure : ℚ) * 0.65)) ∧
      (simulateRestructure [⟨"ccod", 800, 14, 12⟩, ⟨"working", 600, 14, 24⟩] "prepay_highest").newInterest
        = calcTotalInterest 800 14 (max 6 (jsRound (((⟨"ccod", 800, 14, 12⟩ : Loan).tenure : ℚ) * 0.65)))
          + ([⟨"working", 600, 14, 24⟩].map (fun l : Loan => calcTotalInterest l.amount l.rate l.tenure)).sum ∧
      (simulateRestructure [⟨"ccod", 800, 14, 12⟩, ⟨"working", 600, 14, 24⟩] "prepay_highest").details
        = prepayDetails ⟨"ccod", 800, 14, 12⟩
            (max 6 (jsRound (((⟨"ccod", 800, 14, 12⟩ : Loan).tenure : ℚ) * 0.65))) :=
  prepay_tie_first_spec [] ⟨"ccod", 800, 14, 12⟩ [⟨"working", 600, 14, 24⟩]
    (by simp) (by intro y hy; simp at hy; subst hy; norm_num)
    ⟨⟨"working", 600, 14, 24⟩, by simp, rfl⟩

/-- C9: the best-strategy selection used by `generateReportHTML` and
`runAnalysis` returns a result whose `savings` is maximal in the array;
on ties the first maximum in array order — i.e. strategy-declaration
order, since the callers build the array by mapping over
`RESTRUCTURE_STRATEGIES` — is selected (every entry strictly before the
selected one has strictly smaller `savings`). -/
theorem bestResult_spec (rs : List StrategyResult) (m : StrategyResult)
    (h : bestResult rs = some m) :
    (∀ r ∈ rs, r.savings ≤ m.savings) ∧
      ∃ L₁ L₂, rs = L₁ ++ m :: L₂ ∧ ∀ r ∈ L₁, r.savings < m.savings := by
  cases rs with
  | nil => simp [bestResult] at h
  | cons r rs2 =>
    rw [bestResult_eq] at h
    obtain rfl : pickBest r rs2 = m := Option.some.inj h
    exact pickBest_firstMax rs2 r

/-- A concrete strategy result used to exercise `bestResult_spec`. -/
def resultA : StrategyResult :=
  ⟨"prepay_highest", 100, 10, 1100, 60, 12, 24, 40, -2, 40, "", 1000⟩

/-- A second concrete strategy result with the same `savings` as
`resultA`, to exercise the tie-breaking of `bestResult_spec`. -/
def resultB : StrategyResult :=
  ⟨"consolidate", 100, 10, 1100, 60, 11, 36, 40, -1, 40, "", 1000⟩

/-- Witness for `bestResult_spec`: on `[resultA, resultB]`, two results
tied at `savings = 40`, the selection returns the first, `resultA`. -/
theorem bestResult_spec_witness :
    (∀ r ∈ [resultA, resultB], r.savings ≤ resultA.savings) ∧
      ∃ L₁ L₂, [resultA, resultB] = L₁ ++ resultA :: L₂ ∧
        ∀ r ∈ L₁, r.savings < resultA.savings :=
  bestResult_spec [resultA, resultB] resultA
    (by simp [bestResult, resultA, resultB])
